import Mathlib

/-!
Shallow embedding of the Avari Socket.IO signaling backend (src/server.js).

State tables (STATE MANAGEMENT section of server.js):
  matches        : matchId -> Set of sockets        (JS Map / Set, insertion order)
  userSockets    : userId  -> socket
  socketToUser   : socketId -> userId
  matchMetadata  : matchId -> { createdAt, lastActivity }
  deepgramConnections : socketId -> WebSocket (modelled by a session id)

Sockets are identified by a numeric id; their mutable fields
(socket.userId, socket.matchId, socket.connected) live in a per-socket table.
Socket.IO rooms (socket.join / socket.to(room).emit) are modelled by an
explicit room-membership table.  Timestamps are integers (milliseconds, the
ISO-string round trip of the source is lossless for comparison purposes).
Handlers are pure functions from state and message payload to the new state
plus the list of emitted (target socket, event) pairs; the Deepgram bridge
additionally produces a list of provider actions (open / close).
-/

abbrev SId := Nat

structure MatchMeta where
  createdAt : Int
  lastActivity : Int
  deriving DecidableEq

structure SocketInfo where
  userId : Option String
  matchId : Option String
  connected : Bool
  deriving DecidableEq

/-- Association-list model of a JS `Map` keyed by strings: lookup finds the
first entry with the key. -/
def mapLookup {V : Type} (l : List (String × V)) (k : String) : Option V :=
  match l with
  | [] => none
  | e :: rest => if e.1 = k then some e.2 else mapLookup rest k

/-- `Map.set`: replace the first entry with the key in place (JS Maps keep the
original insertion position on overwrite), append at the end otherwise. -/
def mapInsert {V : Type} (l : List (String × V)) (k : String) (v : V) :
    List (String × V) :=
  match l with
  | [] => [(k, v)]
  | e :: rest => if e.1 = k then (k, v) :: rest else e :: mapInsert rest k v

/-- `Map.delete`: drop every entry with the key. -/
def mapErase {V : Type} (l : List (String × V)) (k : String) :
    List (String × V) :=
  match l with
  | [] => []
  | e :: rest => if e.1 = k then mapErase rest k else e :: mapErase rest k

/-- Functional map update (used for the tables keyed by socket id / userId
where iteration order never matters in the source). -/
def fset {K V : Type} [DecidableEq K] (m : K → Option V) (k : K) (v : V) :
    K → Option V :=
  fun x => if x = k then some v else m x

def fdel {K V : Type} [DecidableEq K] (m : K → Option V) (k : K) :
    K → Option V :=
  fun x => if x = k then none else m x

def fupd {K V : Type} [DecidableEq K] (m : K → V) (k : K) (v : V) : K → V :=
  fun x => if x = k then v else m x

/-- JS `Set.add`: append if absent (insertion order preserved). -/
def insertS (sid : SId) (l : List SId) : List SId :=
  if sid ∈ l then l else l ++ [sid]

/-- Events emitted by the server to a client (`socket.emit` /
`socket.to(room).emit` in server.js).  `from` payload fields carry
`socket.userId`, which may be undefined, hence `Option String`. -/
inductive Ev where
  | error (type : String) (message : String)
  | joined (matchId : String) (userId : String)
      (participants : List (Option String)) (participantCount : Nat)
  | userJoined (userId : String) (participantCount : Nat)
  | userLeft (userId : String)
  | incomingCall (fromU : Option String)
  | callAccepted (fromU : Option String)
  | callRejected (fromU : Option String) (reason : String)
  | callEnded (fromU : Option String)
  | offerEv (payload : String) (fromU : Option String)
  | answerEv (payload : String) (fromU : Option String)
  | iceEv (payload : String) (fromU : Option String)
  | trReady
  | trResult (text : String) (isFinal : Bool) (timestamp : Int)
  | trClosed (code : Nat) (reason : String)
  | trError (message : String)
  deriving DecidableEq

/-- Actions on the Deepgram provider side: opening a streaming session,
closing one, feeding audio. -/
inductive DgAct where
  | openS (sid : SId) (session : Nat) (language : String)
  | close (sid : SId) (session : Nat)
  | send (sid : SId) (session : Nat)
  deriving DecidableEq

structure ServerState where
  matchesMap : List (String × List SId)
  userSockets : String → Option SId
  socketToUser : SId → Option String
  matchMetadata : List (String × MatchMeta)
  deepgram : SId → Option Nat
  sockets : SId → SocketInfo
  rooms : String → List SId
  nextDg : Nat

/-- Empty server state (module load time of server.js). -/
def initState : ServerState :=
  { matchesMap := []
    userSockets := fun _ => none
    socketToUser := fun _ => none
    matchMetadata := []
    deepgram := fun _ => none
    sockets := fun _ => ⟨none, none, false⟩
    rooms := fun _ => []
    nextDg := 0 }

/-- `io.on(connection)`: a fresh socket becomes live. -/
def connect (st : ServerState) (sid : SId) : ServerState :=
  { st with sockets := fupd st.sockets sid ⟨none, none, true⟩ }

/-- `socket.to(room).emit(ev)`: deliver to every room member except the
sender. -/
def broadcast (st : ServerState) (room : String) (sender : SId) (ev : Ev) :
    List (SId × Ev) :=
  ((st.rooms room).filter (fun r => decide (r ≠ sender))).map (fun r => (r, ev))

/-- register, lines 188-194: store user info on the socket and in the
userSockets / socketToUser maps (before any capacity check). -/
def regSetInfo (st : ServerState) (sid : SId) (userId matchId : String) :
    ServerState :=
  { st with
    sockets := fupd st.sockets sid
      { st.sockets sid with userId := some userId, matchId := some matchId }
    userSockets := fset st.userSockets userId sid
    socketToUser := fset st.socketToUser sid userId }

/-- register, lines 196-203: create the match (empty set + fresh metadata)
if it does not exist yet. -/
def regInitMatch (st : ServerState) (matchId : String) (now : Int) :
    ServerState :=
  if (mapLookup st.matchesMap matchId).isNone then
    { st with
      matchesMap := mapInsert st.matchesMap matchId []
      matchMetadata := mapInsert st.matchMetadata matchId ⟨now, now⟩ }
  else st

/-- register, lines 217-218: `match.add(socket)` and `socket.join(matchId)`. -/
def regJoinRoom (st : ServerState) (sid : SId) (matchId : String)
    (mset' : List SId) : ServerState :=
  { st with
    matchesMap := mapInsert st.matchesMap matchId mset'
    rooms := fupd st.rooms matchId (insertS sid (st.rooms matchId)) }

/-- register, line 221: `matchMetadata.get(matchId).lastActivity = now`. -/
def regTouch (st : ServerState) (matchId : String) (now : Int)
    (md : MatchMeta) : ServerState :=
  { st with
    matchMetadata :=
      mapInsert st.matchMetadata matchId { md with lastActivity := now } }

/-- register, lines 216-241: add to the match, join the room, touch
lastActivity, ack with `joined` and notify the room with `user-joined`.
The metadata lookup mirrors `matchMetadata.get(matchId).lastActivity = ...`:
were the metadata entry absent the source would throw after the add / join
and the catch block would emit a `server_error` (unreachable from the
initial state).  `regJoinRoom` changes neither the metadata nor the socket
table, so looking both up on `st` matches the source's evaluation order;
the `user-joined` broadcast happens after the join, on the updated rooms. -/
def regJoin (st : ServerState) (sid : SId) (userId matchId : String)
    (now : Int) (mset : List SId) : ServerState × List (SId × Ev) :=
  match mapLookup st.matchMetadata matchId with
  | none =>
    (regJoinRoom st sid matchId (insertS sid mset),
     [(sid, Ev.error "server_error" "Failed to register")])
  | some md =>
    (regTouch (regJoinRoom st sid matchId (insertS sid mset)) matchId now md,
     (sid, Ev.joined matchId userId
        ((insertS sid mset).map (fun s => (st.sockets s).userId))
        (insertS sid mset).length) ::
      broadcast (regJoinRoom st sid matchId (insertS sid mset)) matchId sid
        (Ev.userJoined userId (insertS sid mset).length))

/-- register, lines 207-214: the capacity check
(`match.size >= 2 && !match.has(socket)`), then the add / ack path. -/
def registerAdmit (st₂ : ServerState) (sid : SId) (userId matchId : String)
    (now : Int) : ServerState × List (SId × Ev) :=
  if 2 ≤ ((mapLookup st₂.matchesMap matchId).getD []).length ∧
      sid ∉ (mapLookup st₂.matchesMap matchId).getD [] then
    (st₂, [(sid, Ev.error "match_full" "This match already has 2 participants")])
  else
    regJoin st₂ sid userId matchId now
      ((mapLookup st₂.matchesMap matchId).getD [])

/-- The `register` handler (server.js lines 178-250).  Empty strings model
falsy (missing) payload fields. -/
def register (st : ServerState) (sid : SId) (userId matchId : String)
    (now : Int) : ServerState × List (SId × Ev) :=
  if userId = "" ∨ matchId = "" then
    (st, [(sid, Ev.error "validation" "Missing userId or matchId")])
  else
    registerAdmit (regInitMatch (regSetInfo st sid userId matchId) matchId now)
      sid userId matchId now

/-- The `initiate-call` handler (lines 256-288): forward `incoming-call` to
the target if live, else a `user_offline` error to the sender; on success
touch the sender's match metadata. -/
def initiateCall (st : ServerState) (sid : SId) (toU : String) (now : Int) :
    ServerState × List (SId × Ev) :=
  match st.userSockets toU with
  | none => (st, [(sid, Ev.error "user_offline" "Target user is not connected")])
  | some t =>
    if (st.sockets t).connected then
      let st' :=
        match (st.sockets sid).matchId with
        | some m =>
          match mapLookup st.matchMetadata m with
          | some md =>
            { st with matchMetadata :=
                mapInsert st.matchMetadata m { md with lastActivity := now } }
          | none => st
        | none => st
      (st', [(t, Ev.incomingCall (st.sockets sid).userId)])
    else (st, [(sid, Ev.error "user_offline" "Target user is not connected")])

/-- The `accept-call` handler (lines 290-304): fire-and-forget forward,
nothing when the target is absent or dead. -/
def acceptCall (st : ServerState) (sid : SId) (toU : String) :
    ServerState × List (SId × Ev) :=
  match st.userSockets toU with
  | none => (st, [])
  | some t =>
    if (st.sockets t).connected then
      (st, [(t, Ev.callAccepted (st.sockets sid).userId)])
    else (st, [])

/-- The `reject-call` handler (lines 306-321); `reason || 'User declined'`. -/
def rejectCall (st : ServerState) (sid : SId) (toU reason : String) :
    ServerState × List (SId × Ev) :=
  match st.userSockets toU with
  | none => (st, [])
  | some t =>
    if (st.sockets t).connected then
      (st, [(t, Ev.callRejected (st.sockets sid).userId
              (if reason = "" then "User declined" else reason))])
    else (st, [])

/-- end-call, lines 328-335: direct `call-ended` to the named target when
given and live. -/
def endCallDirect (st : ServerState) (sid : SId) (toU : String) :
    List (SId × Ev) :=
  if toU = "" then []
  else
    match st.userSockets toU with
    | none => []
    | some t =>
      if (st.sockets t).connected then
        [(t, Ev.callEnded (st.sockets sid).userId)]
      else []

/-- end-call, lines 337-342: `call-ended` broadcast to the sender's match
room. -/
def endCallRoom (st : ServerState) (sid : SId) : List (SId × Ev) :=
  match (st.sockets sid).matchId with
  | some m => broadcast st m sid (Ev.callEnded (st.sockets sid).userId)
  | none => []

/-- The `end-call` handler (lines 323-347): direct forward to `to` when
given and live, plus a broadcast of `call-ended` to the sender's match
room. -/
def endCall (st : ServerState) (sid : SId) (toU : String) :
    ServerState × List (SId × Ev) :=
  (st, endCallDirect st sid toU ++ endCallRoom st sid)

/-- The `offer` handler (lines 353-373): forward if the target is live, else
a `user_offline` error back to the sender. -/
def offerH (st : ServerState) (sid : SId) (payload toU : String) :
    ServerState × List (SId × Ev) :=
  match st.userSockets toU with
  | none => (st, [(sid, Ev.error "user_offline" "Target user not found")])
  | some t =>
    if (st.sockets t).connected then
      (st, [(t, Ev.offerEv payload (st.sockets sid).userId)])
    else (st, [(sid, Ev.error "user_offline" "Target user not found")])

/-- The `answer` handler (lines 375-390): forward if live, otherwise nothing
at all (no error branch in the source). -/
def answerH (st : ServerState) (sid : SId) (payload toU : String) :
    ServerState × List (SId × Ev) :=
  match st.userSockets toU with
  | none => (st, [])
  | some t =>
    if (st.sockets t).connected then
      (st, [(t, Ev.answerEv payload (st.sockets sid).userId)])
    else (st, [])

/-- The `ice-candidate` handler (lines 392-405): same silent-drop shape as
`answer`. -/
def iceCandidateH (st : ServerState) (sid : SId) (payload toU : String) :
    ServerState × List (SId × Ev) :=
  match st.userSockets toU with
  | none => (st, [])
  | some t =>
    if (st.sockets t).connected then
      (st, [(t, Ev.iceEv payload (st.sockets sid).userId)])
    else (st, [])

/-- The `transcription:start` handler (lines 411-476).  `apiKey` is the
`DEEPGRAM_API_KEY` environment value ("" models a missing / falsy key);
provider sessions are numbered by `nextDg`. -/
def transcriptionStart (st : ServerState) (sid : SId)
    (language apiKey : String) :
    ServerState × List (SId × Ev) × List DgAct :=
  if apiKey = "" then
    (st, [(sid, Ev.trError "DEEPGRAM_API_KEY not configured on server")], [])
  else
    let closeActs :=
      match st.deepgram sid with
      | some old => [DgAct.close sid old]
      | none => []
    let st₁ :=
      match st.deepgram sid with
      | some _ => { st with deepgram := fdel st.deepgram sid }
      | none => st
    let lang := if language = "" then "en-US" else language
    let nid := st₁.nextDg
    ({ st₁ with deepgram := fset st₁.deepgram sid nid, nextDg := nid + 1 },
     [], closeActs ++ [DgAct.openS sid nid lang])

/-- The `transcription:stop` handler (lines 485-492). -/
def transcriptionStop (st : ServerState) (sid : SId) :
    ServerState × List DgAct :=
  match st.deepgram sid with
  | some s => ({ st with deepgram := fdel st.deepgram sid }, [DgAct.close sid s])
  | none => (st, [])

/-- The Deepgram `open` callback (lines 439-442). -/
def dgOnOpen (st : ServerState) (sid : SId) : ServerState × List (SId × Ev) :=
  (st, [(sid, Ev.trReady)])

/-- The Deepgram `error` callback (lines 467-470): notify the client, touch
nothing else — in particular the `deepgramConnections` entry stays. -/
def dgOnError (st : ServerState) (sid : SId) (msg : String) :
    ServerState × List (SId × Ev) :=
  (st, [(sid, Ev.trError msg)])

/-- The Deepgram `close` callback (lines 460-465): remove the session entry
and notify the client. -/
def dgOnClose (st : ServerState) (sid : SId) (code : Nat) (reason : String) :
    ServerState × List (SId × Ev) :=
  ({ st with deepgram := fdel st.deepgram sid },
   [(sid, Ev.trClosed code reason)])

/-- disconnect, lines 503-508: close and drop the Deepgram session. -/
def discDg (st : ServerState) (sid : SId) : ServerState × List DgAct :=
  match st.deepgram sid with
  | some s => ({ st with deepgram := fdel st.deepgram sid }, [DgAct.close sid s])
  | none => (st, [])

/-- disconnect, lines 511-513: delete the userId and socketId index
entries. -/
def discMaps (st : ServerState) (sid : SId) (u : String) : ServerState :=
  { st with
    userSockets := fdel st.userSockets u
    socketToUser := fdel st.socketToUser sid }

/-- disconnect, lines 521-528: `user-left` then `call-ended` to the other
room members.  The member-set update between the two mutations of the
source leaves the rooms untouched, so broadcasting on `st` is exact. -/
def discNotify (st : ServerState) (sid : SId) (u m : String) :
    List (SId × Ev) :=
  broadcast st m sid (Ev.userLeft u) ++ broadcast st m sid (Ev.callEnded u)

/-- disconnect, lines 516-536: remove the socket from its match's set,
notify the remaining room members, and delete the match and its metadata
entirely when the set became empty. -/
def discMatch (st : ServerState) (sid : SId) (u m : String) :
    ServerState × List (SId × Ev) :=
  match mapLookup st.matchesMap m with
  | none => (st, [])
  | some mset =>
    if (mset.erase sid).length = 0 then
      ({ st with
          matchesMap := mapErase (mapInsert st.matchesMap m (mset.erase sid)) m
          matchMetadata := mapErase st.matchMetadata m },
       discNotify st sid u m)
    else
      ({ st with matchesMap := mapInsert st.matchesMap m (mset.erase sid) },
       discNotify st sid u m)

/-- disconnect, lines 510-538: retract the registration, notify the room
with `user-left` and `call-ended`, delete the match when it empties. -/
def discReg (st : ServerState) (sid : SId) : ServerState × List (SId × Ev) :=
  match (st.sockets sid).userId with
  | none => (st, [])
  | some u =>
    match (st.sockets sid).matchId with
    | none => (discMaps st sid u, [])
    | some m => discMatch (discMaps st sid u) sid u m

/-- Socket.IO runtime effect of a disconnect: the socket leaves every room
and its `connected` flag drops. -/
def discFinal (st : ServerState) (sid : SId) : ServerState :=
  { st with
    rooms := fun r => (st.rooms r).erase sid
    sockets := fupd st.sockets sid { st.sockets sid with connected := false } }

/-- The full `disconnect` handler (lines 498-543) plus the runtime room /
liveness cleanup. -/
def disconnect (st : ServerState) (sid : SId) :
    ServerState × List (SId × Ev) × List DgAct :=
  let p₀ := discDg st sid
  let p₁ := discReg p₀.1 sid
  (discFinal p₁.1 sid, p₁.2, p₀.2)

/-- Registration / disconnection operations, for the capacity invariant. -/
inductive Op where
  | reg (sid : SId) (userId matchId : String) (now : Int)
  | disc (sid : SId)

def applyOp (st : ServerState) : Op → ServerState
  | .reg sid u m now => (register st sid u m now).1
  | .disc sid => (disconnect st sid).1

def runOps (ops : List Op) (st : ServerState) : ServerState :=
  ops.foldl applyOp st

/-- Staleness threshold of the background reaper (30 minutes, line 561). -/
def staleTimeout : Int := 30 * 60 * 1000

/-- One loop iteration of the reaper (lines 563-573) for the metadata
entry (mid, md) taken from the iteration snapshot: purge the match when it
is stale and currently empty. -/
def reapCheck (now : Int) (st : ServerState) (mid : String)
    (md : MatchMeta) : ServerState :=
  if staleTimeout < now - md.lastActivity then
    match mapLookup st.matchesMap mid with
    | some mset =>
      if mset.length = 0 then
        { st with
          matchesMap := mapErase st.matchesMap mid
          matchMetadata := mapErase st.matchMetadata mid }
      else st
    | none => st
  else st

def reapStep (now : Int) (st : ServerState) (e : String × MatchMeta) :
    ServerState :=
  reapCheck now st e.1 e.2

/-- The reaper pass (setInterval body, lines 559-574): iterate over the
match-metadata entries. -/
def reap (st : ServerState) (now : Int) : ServerState :=
  st.matchMetadata.foldl (reapStep now) st

/-- A userId has no live connection (target lookup + `connected` check used
by every routing handler). -/
def offline (st : ServerState) (u : String) : Bool :=
  match st.userSockets u with
  | none => true
  | some t => !(st.sockets t).connected

/-- The capacity check of register will admit this socket into this match
(it is below capacity or the socket is already a member). -/
def canJoinB (st : ServerState) (sid : SId) (m : String) : Bool :=
  match mapLookup st.matchesMap m with
  | none => true
  | some l => decide (l.length < 2) || decide (sid ∈ l)

/-- The metadata table has an entry whenever the match table does (true in
every state the server actually reaches: the two tables are created and
deleted together). -/
def metaOK (st : ServerState) (m : String) : Bool :=
  !(mapLookup st.matchesMap m).isSome || (mapLookup st.matchMetadata m).isSome

/-- The participant count reported in a leading `joined` acknowledgment. -/
def ackCount (evs : List (SId × Ev)) : Option Nat :=
  match evs with
  | (_, Ev.joined _ _ _ c) :: _ => some c
  | _ => none

/-- The length of the participant list reported in a leading `joined`
acknowledgment. -/
def ackPartsLen (evs : List (SId × Ev)) : Option Nat :=
  match evs with
  | (_, Ev.joined _ _ parts _) :: _ => some parts.length
  | _ => none

/-- Every match set currently held in the registry has at most two members
(the documented strict 1:1 capacity). -/
def SizeInv (st : ServerState) : Prop :=
  ∀ m s, mapLookup st.matchesMap m = some s → s.length ≤ 2

/-- A concrete two-member state: sockets 1 and 2 connected and registered
as u1 / u2 in match m1 (used by the witness theorems). -/
def stW : ServerState :=
  (register (register (connect (connect initState 1) 2) 1 "u1" "m1" 0).1
    2 "u2" "m1" 0).1

/-- A single live, unregistered socket (used by counterexamples). -/
def stC2 : ServerState := connect initState 1

/-- stW with an open Deepgram session (id 0) for socket 1. -/
def stT : ServerState := (transcriptionStart stW 1 "" "KEY").1

/-- A reaper scenario: m1 empty with old metadata, m2 occupied, m3 a
metadata entry whose match entry is gone. -/
def stR : ServerState :=
  { initState with
      matchesMap := [("m1", []), ("m2", [9])]
      matchMetadata := [("m1", ⟨0, 0⟩), ("m2", ⟨0, 0⟩), ("m3", ⟨0, 0⟩)] }

/-- A reachable state with a zombie member: socket 1 registered to m1,
re-registered to m2 (staying in m1's set — the displacement leak of spec
section 9), then disconnected (leaving every room); socket 2 then joined
m1, so m1's set is [1, 2] but its room holds only socket 2. -/
def stZ5 : ServerState :=
  (register (disconnect (register (register (connect (connect initState 1) 2)
      1 "u1" "m1" 0).1 1 "u1" "m2" 0).1 1).1 2 "u2" "m1" 5).1

/-! ### Basic lemmas about the map and set models -/

theorem mapLookup_mapInsert_self {V : Type} (l : List (String × V)) (k : String)
    (v : V) : mapLookup (mapInsert l k v) k = some v := by
  induction l with
  | nil => simp [mapInsert, mapLookup]
  | cons e rest ih =>
    by_cases h : e.1 = k
    · simp [mapInsert, mapLookup, h]
    · simp [mapInsert, mapLookup, h, ih]

theorem mapLookup_mapInsert_ne {V : Type} (l : List (String × V))
    (k k' : String) (v : V) (h : k' ≠ k) :
    mapLookup (mapInsert l k v) k' = mapLookup l k' := by
  have hkk : ¬ k = k' := Ne.symm h
  induction l with
  | nil => simp [mapInsert, mapLookup, hkk]
  | cons e rest ih =>
    by_cases he : e.1 = k
    · have he' : ¬ e.1 = k' := by rw [he]; exact hkk
      simp [mapInsert, mapLookup, he, he', hkk]
    · by_cases he' : e.1 = k'
      · simp [mapInsert, mapLookup, he, he', h]
      · simp [mapInsert, mapLookup, he, he', ih]

theorem mapLookup_mapErase_self {V : Type} (l : List (String × V))
    (k : String) : mapLookup (mapErase l k) k = none := by
  induction l with
  | nil => simp [mapErase, mapLookup]
  | cons e rest ih =>
    by_cases h : e.1 = k
    · simp [mapErase, h, ih]
    · simp [mapErase, mapLookup, h, ih]

theorem mapLookup_mapErase_ne {V : Type} (l : List (String × V))
    (k k' : String) (h : k' ≠ k) :
    mapLookup (mapErase l k) k' = mapLookup l k' := by
  induction l with
  | nil => simp [mapErase]
  | cons e rest ih =>
    by_cases he : e.1 = k
    · have he' : ¬ e.1 = k' := by rw [he]; exact Ne.symm h
      have hkk : ¬ k = k' := Ne.symm h
      simp [mapErase, mapLookup, he, he', hkk, ih]
    · simp [mapErase, mapLookup, he, ih]

theorem mapInsert_lookup_self {V : Type} (l : List (String × V)) (k : String)
    (v : V) (h : mapLookup l k = some v) : mapInsert l k v = l := by
  induction l with
  | nil => simp [mapLookup] at h
  | cons e rest ih =>
    cases e with
    | mk k₀ v₀ =>
      by_cases he : k₀ = k
      · subst he
        simp [mapLookup] at h
        subst h
        simp [mapInsert]
      · simp [mapLookup, he] at h
        simp [mapInsert, he, ih h]

theorem mem_of_mapLookup_some {V : Type} {l : List (String × V)} {k : String}
    {v : V} (h : mapLookup l k = some v) : (k, v) ∈ l := by
  induction l with
  | nil => simp [mapLookup] at h
  | cons e rest ih =>
    cases e with
    | mk k₀ v₀ =>
      by_cases he : k₀ = k
      · subst he
        simp [mapLookup] at h
        subst h
        exact List.mem_cons_self _ _
      · simp [mapLookup, he] at h
        exact List.mem_cons_of_mem _ (ih h)

theorem not_mem_keys_of_mapLookup_eq_none {V : Type} {l : List (String × V)}
    {k : String} (h : mapLookup l k = none) : k ∉ l.map Prod.fst := by
  induction l with
  | nil => simp
  | cons e rest ih =>
    by_cases he : e.1 = k
    · simp [mapLookup, he] at h
    · simp [mapLookup, he] at h
      have hne : ¬ k = e.1 := fun hh => he hh.symm
      simp [hne, ih h]

theorem insertS_of_mem {sid : SId} {l : List SId} (h : sid ∈ l) :
    insertS sid l = l := by
  simp [insertS, h]

theorem mem_insertS_self (sid : SId) (l : List SId) : sid ∈ insertS sid l := by
  by_cases h : sid ∈ l
  · simp [insertS, h]
  · simp [insertS, h]

theorem length_insertS (sid : SId) (l : List SId) :
    (insertS sid l).length ≤ l.length + 1 := by
  by_cases h : sid ∈ l
  · simp [insertS, h]
  · simp [insertS, h]

/-! ### The match-capacity invariant (claim C1) -/

theorem sizeInv_init : SizeInv initState := by
  intro m s h
  simp [initState, mapLookup] at h

theorem regSetInfo_matchesMap (st : ServerState) (sid : SId) (u m : String) :
    (regSetInfo st sid u m).matchesMap = st.matchesMap := rfl

theorem regInitMatch_lookup_self (st : ServerState) (m : String) (now : Int) :
    mapLookup (regInitMatch st m now).matchesMap m =
      some ((mapLookup st.matchesMap m).getD []) := by
  unfold regInitMatch
  cases h : mapLookup st.matchesMap m with
  | none => simp [h, mapLookup_mapInsert_self]
  | some l => simp [h]

theorem regInitMatch_lookup_ne (st : ServerState) (m m' : String) (now : Int)
    (h : m' ≠ m) :
    mapLookup (regInitMatch st m now).matchesMap m' =
      mapLookup st.matchesMap m' := by
  unfold regInitMatch
  cases hh : mapLookup st.matchesMap m with
  | none => simp [hh, mapLookup_mapInsert_ne _ _ _ _ h]
  | some l => simp [hh]

theorem regJoin_matchesMap (st : ServerState) (sid : SId) (u m : String)
    (now : Int) (mset : List SId) :
    (regJoin st sid u m now mset).1.matchesMap =
      mapInsert st.matchesMap m (insertS sid mset) := by
  unfold regJoin
  cases mapLookup st.matchMetadata m <;> rfl

theorem registerAdmit_sizeInv (st₂ : ServerState) (sid : SId) (u m : String)
    (now : Int) (h₂ : SizeInv st₂) :
    SizeInv (registerAdmit st₂ sid u m now).1 := by
  unfold registerAdmit
  by_cases hfull : 2 ≤ ((mapLookup st₂.matchesMap m).getD []).length ∧
      sid ∉ (mapLookup st₂.matchesMap m).getD []
  · simpa [hfull] using h₂
  · simp only [if_neg hfull]
    intro m' s' hs'
    rw [regJoin_matchesMap] at hs'
    by_cases hm : m' = m
    · subst hm
      rw [mapLookup_mapInsert_self] at hs'
      have hbound : ((mapLookup st₂.matchesMap m').getD []).length ≤ 2 := by
        cases hl : mapLookup st₂.matchesMap m' with
        | none => simp
        | some l => simpa using h₂ m' l hl
      have hs'' : insertS sid ((mapLookup st₂.matchesMap m').getD []) = s' :=
        Option.some.inj hs'
      rcases Decidable.not_and_iff_or_not.mp hfull with hlt | hmem
      · have hle : ((mapLookup st₂.matchesMap m').getD []).length + 1 ≤ 2 :=
          Nat.lt_of_not_le hlt
        exact hs'' ▸ le_trans (length_insertS _ _) hle
      · have hmem' : sid ∈ (mapLookup st₂.matchesMap m').getD [] :=
          Decidable.not_not.mp hmem
        rw [insertS_of_mem hmem'] at hs''
        exact hs'' ▸ hbound
    · rw [mapLookup_mapInsert_ne _ _ _ _ hm] at hs'
      exact h₂ m' s' hs'

theorem register_sizeInv (st : ServerState) (sid : SId) (u m : String)
    (now : Int) (h : SizeInv st) : SizeInv (register st sid u m now).1 := by
  unfold register
  by_cases hv : u = "" ∨ m = ""
  · simpa [hv] using h
  · simp only [if_neg hv]
    apply registerAdmit_sizeInv
    intro m' s' hs'
    by_cases hm : m' = m
    · subst hm
      rw [regInitMatch_lookup_self, regSetInfo_matchesMap] at hs'
      cases hl : mapLookup st.matchesMap m' with
      | none =>
        rw [hl] at hs'
        simp at hs'
        subst hs'
        simp
      | some l =>
        rw [hl] at hs'
        simp at hs'
        exact hs' ▸ h m' l hl
    · rw [regInitMatch_lookup_ne _ _ _ _ hm, regSetInfo_matchesMap] at hs'
      exact h m' s' hs'

theorem discDg_matchesMap (st : ServerState) (sid : SId) :
    (discDg st sid).1.matchesMap = st.matchesMap := by
  unfold discDg
  cases st.deepgram sid <;> rfl

theorem discDg_matchMetadata (st : ServerState) (sid : SId) :
    (discDg st sid).1.matchMetadata = st.matchMetadata := by
  unfold discDg
  cases st.deepgram sid <;> rfl

theorem discDg_userSockets (st : ServerState) (sid : SId) :
    (discDg st sid).1.userSockets = st.userSockets := by
  unfold discDg
  cases st.deepgram sid <;> rfl

theorem discDg_sockets (st : ServerState) (sid : SId) :
    (discDg st sid).1.sockets = st.sockets := by
  unfold discDg
  cases st.deepgram sid <;> rfl

theorem discDg_rooms (st : ServerState) (sid : SId) :
    (discDg st sid).1.rooms = st.rooms := by
  unfold discDg
  cases st.deepgram sid <;> rfl

theorem discMatch_sizeInv (st : ServerState) (sid : SId) (u m : String)
    (h : SizeInv st) : SizeInv (discMatch st sid u m).1 := by
  unfold discMatch
  cases hl : mapLookup st.matchesMap m with
  | none => simpa using h
  | some mset =>
    by_cases hlen : (mset.erase sid).length = 0
    · simp only [hlen, if_true, if_pos]
      intro m' s' hs'
      by_cases hm : m' = m
      · subst hm
        simp [mapLookup_mapErase_self] at hs'
      · simp only at hs'
        rw [mapLookup_mapErase_ne _ _ _ hm,
          mapLookup_mapInsert_ne _ _ _ _ hm] at hs'
        exact h m' s' hs'
    · simp only [hlen, if_neg, if_false]
      intro m' s' hs'
      by_cases hm : m' = m
      · subst hm
        simp only at hs'
        rw [mapLookup_mapInsert_self] at hs'
        have hs'' : mset.erase sid = s' := Option.some.inj hs'
        calc s'.length = (mset.erase sid).length := by rw [hs'']
          _ ≤ mset.length := List.length_erase_le _ _
          _ ≤ 2 := h m' mset hl
      · simp only at hs'
        rw [mapLookup_mapInsert_ne _ _ _ _ hm] at hs'
        exact h m' s' hs'

theorem discReg_sizeInv (st : ServerState) (sid : SId)
    (h : SizeInv st) : SizeInv (discReg st sid).1 := by
  unfold discReg
  cases (st.sockets sid).userId with
  | none => simpa using h
  | some u =>
    cases (st.sockets sid).matchId with
    | none => simpa using h
    | some m =>
      simp only
      exact discMatch_sizeInv _ sid u m (by simpa [discMaps] using h)

theorem disconnect_sizeInv (st : ServerState) (sid : SId)
    (h : SizeInv st) : SizeInv (disconnect st sid).1 := by
  have hd : (disconnect st sid).1.matchesMap =
      (discReg (discDg st sid).1 sid).1.matchesMap := rfl
  intro m s hs
  rw [hd] at hs
  have hdg : SizeInv (discDg st sid).1 := by
    intro m' s' hs'
    rw [discDg_matchesMap] at hs'
    exact h m' s' hs'
  exact discReg_sizeInv _ sid hdg m s hs

theorem runOps_sizeInv (ops : List Op) :
    ∀ st, SizeInv st → SizeInv (runOps ops st) := by
  induction ops with
  | nil => intro st h; exact h
  | cons op rest ih =>
    intro st h
    cases op with
    | reg sid u m now => exact ih _ (register_sizeInv st sid u m now h)
    | disc sid => exact ih _ (disconnect_sizeInv st sid h)

/-- On a full match (≥ 2 members, socket not one of them) `register` stops
right after the index/label writes with a `match_full` error. -/
theorem register_full (st : ServerState) (sid : SId) (u m : String)
    (now : Int) (mset : List SId) (hu : u ≠ "") (hm : m ≠ "")
    (hset : mapLookup st.matchesMap m = some mset)
    (hlen : 2 ≤ mset.length) (hmem : sid ∉ mset) :
    register st sid u m now =
      (regSetInfo st sid u m,
       [(sid, Ev.error "match_full" "This match already has 2 participants")]) := by
  unfold register
  rw [if_neg (by simp [hu, hm])]
  have hno : ¬ (mapLookup (regSetInfo st sid u m).matchesMap m).isNone = true := by
    simp [regSetInfo_matchesMap, hset]
  have hinit : regInitMatch (regSetInfo st sid u m) m now =
      regSetInfo st sid u m := by
    simp [regInitMatch, hno]
  rw [hinit]
  unfold registerAdmit
  have hcond : 2 ≤ ((mapLookup (regSetInfo st sid u m).matchesMap m).getD []).length ∧
      sid ∉ (mapLookup (regSetInfo st sid u m).matchesMap m).getD [] := by
    rw [regSetInfo_matchesMap, hset]
    exact ⟨hlen, hmem⟩
  rw [if_pos hcond]

/-- C1: for every sequence of register and disconnect operations starting
from the empty registry, a match's connection set never holds more than 2
distinct connections; and a register naming a match that already has 2
distinct connections, from a connection that is not already a member, fails
with a `match_full` error and leaves the match's member set unchanged. -/
theorem register_capacity_invariant :
    (∀ ops m s,
       mapLookup (runOps ops initState).matchesMap m = some s →
       s.length ≤ 2) ∧
    (∀ st sid u m now mset, u ≠ "" → m ≠ "" →
       mapLookup st.matchesMap m = some mset → 2 ≤ mset.length → sid ∉ mset →
       (register st sid u m now).2 =
         [(sid, Ev.error "match_full" "This match already has 2 participants")] ∧
       mapLookup (register st sid u m now).1.matchesMap m = some mset) := by
  constructor
  · intro ops m s h
    exact runOps_sizeInv ops initState sizeInv_init m s h
  · intro st sid u m now mset hu hm hset hlen hmem
    rw [register_full st sid u m now mset hu hm hset hlen hmem]
    exact ⟨rfl, by rw [regSetInfo_matchesMap]; exact hset⟩

/-- Witness for C1: a run producing a 2-member match, and the rejection of
a third registration there. -/
theorem register_capacity_invariant_witness :
    ([1, 2] : List SId).length ≤ 2 ∧
    ((register stW 3 "u3" "m1" 5).2 =
       [(3, Ev.error "match_full" "This match already has 2 participants")] ∧
     mapLookup (register stW 3 "u3" "m1" 5).1.matchesMap "m1" = some [1, 2]) :=
  ⟨register_capacity_invariant.1 [Op.reg 1 "u1" "m1" 0, Op.reg 2 "u2" "m1" 0]
      "m1" [1, 2] (by decide),
   register_capacity_invariant.2 stW 3 "u3" "m1" 5 [1, 2] (by decide)
      (by decide) (by decide) (by decide) (by decide)⟩

/-- C10: when register is rejected with `match_full`, the rejection is not
atomic — the userId index entry already points at the rejected connection,
the socket-to-user index is updated, and the socket's userId / matchId
labels carry the requested values; only the match table and the metadata
table are untouched by the rejected call. -/
theorem register_reject_nonatomic (st : ServerState) (sid : SId)
    (u m : String) (now : Int) (mset : List SId)
    (hu : u ≠ "") (hm : m ≠ "")
    (hset : mapLookup st.matchesMap m = some mset)
    (hlen : 2 ≤ mset.length) (hmem : sid ∉ mset) :
    (register st sid u m now).2 =
      [(sid, Ev.error "match_full" "This match already has 2 participants")] ∧
    (register st sid u m now).1.userSockets u = some sid ∧
    (register st sid u m now).1.socketToUser sid = some u ∧
    ((register st sid u m now).1.sockets sid).userId = some u ∧
    ((register st sid u m now).1.sockets sid).matchId = some m ∧
    (register st sid u m now).1.matchesMap = st.matchesMap ∧
    (register st sid u m now).1.matchMetadata = st.matchMetadata := by
  rw [register_full st sid u m now mset hu hm hset hlen hmem]
  refine ⟨rfl, ?_, ?_, ?_, ?_, rfl, rfl⟩
  · simp [regSetInfo, fset]
  · simp [regSetInfo, fset]
  · simp [regSetInfo, fupd]
  · simp [regSetInfo, fupd]

/-- Witness for C10 at the concrete two-member state. -/
theorem register_reject_nonatomic_witness :
    (register stW 3 "u3" "m1" 5).2 =
      [(3, Ev.error "match_full" "This match already has 2 participants")] ∧
    (register stW 3 "u3" "m1" 5).1.userSockets "u3" = some 3 ∧
    (register stW 3 "u3" "m1" 5).1.socketToUser 3 = some "u3" ∧
    ((register stW 3 "u3" "m1" 5).1.sockets 3).userId = some "u3" ∧
    ((register stW 3 "u3" "m1" 5).1.sockets 3).matchId = some "m1" ∧
    (register stW 3 "u3" "m1" 5).1.matchesMap = stW.matchesMap ∧
    (register stW 3 "u3" "m1" 5).1.matchMetadata = stW.matchMetadata :=
  register_reject_nonatomic stW 3 "u3" "m1" 5 [1, 2] (by decide) (by decide)
    (by decide) (by decide) (by decide)

/-- C2 counterexample: routing `answer` to the offline userId u2 emits no
event at all — in particular not the single error event the claim
demands. -/
theorem offline_answer_silent_cex :
    (answerH stC2 1 "sdp" "u2").2 = ([] : List (SId × Ev)) ∧
    ∀ t msg, (answerH stC2 1 "sdp" "u2").2 ≠ [(1, Ev.error t msg)] := by
  constructor
  · rfl
  · intro t msg h
    rw [show (answerH stC2 1 "sdp" "u2").2 = [] from rfl] at h
    exact List.noConfusion h

/-- C2 (amended): routing to a userId with no live connection — `offer` and
`initiate-call` send exactly one `user_offline` error back to the sender
and nothing to anyone else; `answer` and `ice-candidate` emit nothing at
all; none of the four handlers changes the state. -/
theorem offline_routing_amended (st : ServerState) (sid : SId)
    (pl toU : String) (now : Int) (hoff : offline st toU = true) :
    offerH st sid pl toU =
      (st, [(sid, Ev.error "user_offline" "Target user not found")]) ∧
    initiateCall st sid toU now =
      (st, [(sid, Ev.error "user_offline" "Target user is not connected")]) ∧
    answerH st sid pl toU = (st, []) ∧
    iceCandidateH st sid pl toU = (st, []) := by
  unfold offline at hoff
  cases ht : st.userSockets toU with
  | none =>
    refine ⟨?_, ?_, ?_, ?_⟩ <;>
      simp [offerH, initiateCall, answerH, iceCandidateH, ht]
  | some t =>
    rw [ht] at hoff
    simp at hoff
    refine ⟨?_, ?_, ?_, ?_⟩ <;>
      simp [offerH, initiateCall, answerH, iceCandidateH, ht, hoff]

/-- Witness for C2 (amended) at a concrete state with u2 offline. -/
theorem offline_routing_amended_witness :
    offerH stC2 1 "sdp" "u2" =
      (stC2, [(1, Ev.error "user_offline" "Target user not found")]) ∧
    initiateCall stC2 1 "u2" 7 =
      (stC2, [(1, Ev.error "user_offline" "Target user is not connected")]) ∧
    answerH stC2 1 "sdp" "u2" = (stC2, []) ∧
    iceCandidateH stC2 1 "sdp" "u2" = (stC2, []) :=
  offline_routing_amended stC2 1 "sdp" "u2" 7 (by decide)

/-- C3 counterexample: `accept-call` from the registered socket 1 to the
live peer u2 is the identity on the state — the metadata entry for m1
keeps lastActivity 0 (its registration-time value) no matter how much
later the call-control activity happens, so nothing is refreshed. -/
theorem accept_call_no_touch_cex :
    (acceptCall stW 1 "u2").1 = stW ∧
    mapLookup stW.matchMetadata "m1" = some ⟨0, 0⟩ ∧
    mapLookup (acceptCall stW 1 "u2").1.matchMetadata "m1" = some ⟨0, 0⟩ :=
  ⟨rfl, by decide, by decide⟩

/-- C3 (amended): among the call-control / signaling handlers only
`initiate-call` (on the successful path, with a live target) refreshes the
sender's match `lastActivity`; `accept-call`, `reject-call`, `end-call`,
`offer`, `answer` and `ice-candidate` leave the entire state — in
particular the metadata — unchanged. -/
theorem activity_refresh_amended (st : ServerState) (sid t : SId)
    (toU pl reason : String) (now : Int) (m : String) (md : MatchMeta)
    (ht : st.userSockets toU = some t)
    (hc : (st.sockets t).connected = true)
    (hm : (st.sockets sid).matchId = some m)
    (hmd : mapLookup st.matchMetadata m = some md) :
    mapLookup (initiateCall st sid toU now).1.matchMetadata m =
      some ⟨md.createdAt, now⟩ ∧
    (acceptCall st sid toU).1 = st ∧
    (rejectCall st sid toU reason).1 = st ∧
    (endCall st sid toU).1 = st ∧
    (offerH st sid pl toU).1 = st ∧
    (answerH st sid pl toU).1 = st ∧
    (iceCandidateH st sid pl toU).1 = st := by
  refine ⟨?_, ?_, ?_, rfl, ?_, ?_, ?_⟩
  · simp [initiateCall, ht, hc, hm, hmd, mapLookup_mapInsert_self]
  · simp [acceptCall, ht, hc]
  · simp [rejectCall, ht, hc]
  · simp [offerH, ht, hc]
  · simp [answerH, ht, hc]
  · simp [iceCandidateH, ht, hc]

/-- Witness for C3 (amended): initiate-call at time 9 bumps m1's
lastActivity from 0 to 9; the six other handlers leave the state alone. -/
theorem activity_refresh_amended_witness :
    mapLookup (initiateCall stW 1 "u2" 9).1.matchMetadata "m1" =
      some ⟨0, 9⟩ ∧
    (acceptCall stW 1 "u2").1 = stW ∧
    (rejectCall stW 1 "u2" "r").1 = stW ∧
    (endCall stW 1 "u2").1 = stW ∧
    (offerH stW 1 "sdp" "u2").1 = stW ∧
    (answerH stW 1 "sdp" "u2").1 = stW ∧
    (iceCandidateH stW 1 "sdp" "u2").1 = stW :=
  activity_refresh_amended stW 1 2 "u2" "sdp" "r" 9 "m1" ⟨0, 0⟩
    (by decide) (by decide) (by decide) (by decide)

/-- Every event the end-call room broadcast produces is a `call-ended`. -/
theorem endCallRoom_shape (st : ServerState) (sid : SId) :
    ∀ e ∈ endCallRoom st sid,
      ∃ r, e = (r, Ev.callEnded (st.sockets sid).userId) := by
  intro e he
  unfold endCallRoom at he
  cases hm : (st.sockets sid).matchId with
  | none => rw [hm] at he; simp at he
  | some m =>
    rw [hm] at he
    simp only [broadcast, List.mem_map] at he
    obtain ⟨r, hr, hre⟩ := he
    exact ⟨r, hre.symm⟩

/-- C8: accept-call, reject-call and end-call addressed to a userId with no
live connection send no error back to the sender and leave the state
unchanged (accept / reject emit nothing at all; end-call only broadcasts
`call-ended` to the sender's match room, never an error and never to the
sender). -/
theorem offline_call_control_silent (st : ServerState) (sid : SId)
    (toU reason : String) (hoff : offline st toU = true) :
    acceptCall st sid toU = (st, []) ∧
    rejectCall st sid toU reason = (st, []) ∧
    (endCall st sid toU).1 = st ∧
    (∀ tp msg, (sid, Ev.error tp msg) ∉ (endCall st sid toU).2) := by
  unfold offline at hoff
  have hdir : endCallDirect st sid toU = [] := by
    unfold endCallDirect
    by_cases h0 : toU = ""
    · simp [h0]
    · cases ht : st.userSockets toU with
      | none => simp [h0, ht]
      | some t =>
        rw [ht] at hoff
        simp at hoff
        simp [h0, ht, hoff]
  have hmem : ∀ tp msg, (sid, Ev.error tp msg) ∉ (endCall st sid toU).2 := by
    intro tp msg hmem
    rw [show (endCall st sid toU).2 =
        endCallDirect st sid toU ++ endCallRoom st sid from rfl,
      List.mem_append] at hmem
    rcases hmem with h1 | h2
    · rw [hdir] at h1
      simp at h1
    · obtain ⟨r, hr⟩ := endCallRoom_shape st sid _ h2
      simp at hr
  refine ⟨?_, ?_, rfl, hmem⟩
  · cases ht : st.userSockets toU with
    | none => simp [acceptCall, ht]
    | some t =>
      rw [ht] at hoff
      simp at hoff
      simp [acceptCall, ht, hoff]
  · cases ht : st.userSockets toU with
    | none => simp [rejectCall, ht]
    | some t =>
      rw [ht] at hoff
      simp at hoff
      simp [rejectCall, ht, hoff]

/-- Witness for C8 at the concrete two-member state with offline target
zz (the end-call room broadcast to the peer carries no error and nothing
targets the sender). -/
theorem offline_call_control_silent_witness :
    acceptCall stW 1 "zz" = (stW, []) ∧
    rejectCall stW 1 "zz" "busy" = (stW, []) ∧
    (endCall stW 1 "zz").1 = stW ∧
    (∀ tp msg, (1, Ev.error tp msg) ∉ (endCall stW 1 "zz").2) :=
  offline_call_control_silent stW 1 "zz" "busy" (by decide)

/-- C4 counterexample: with a live session (id 0) for socket 1, a provider
error notifies the client but the session entry is still in the table
afterwards — it is not closed or removed by the error handler. -/
theorem provider_error_keeps_session_cex :
    (dgOnError stT 1 "boom").1.deepgram 1 = some 0 ∧
    (dgOnError stT 1 "boom").2 = [(1, Ev.trError "boom")] :=
  ⟨by decide, rfl⟩

/-- C4 (amended): on a provider error the connection is notified with
`transcription:error` and nothing else happens — the parent connection is
not torn down, but the session entry is also not removed by the error
handler itself; the removal happens when the provider close event fires,
which deletes the entry and notifies the client with `transcription:closed`
(the ws library fires close after error, so the session is still reclaimed
at runtime, just not by the error callback). -/
theorem provider_error_amended (st : ServerState) (sid : SId) (msg : String)
    (code : Nat) (reason : String) :
    dgOnError st sid msg = (st, [(sid, Ev.trError msg)]) ∧
    (dgOnClose st sid code reason).1.deepgram sid = none ∧
    (dgOnClose st sid code reason).2 = [(sid, Ev.trClosed code reason)] := by
  refine ⟨rfl, ?_, rfl⟩
  simp [dgOnClose, fdel]

/-- C7: without a configured credential `transcription:start` emits a
`transcription:error` and opens no provider session; with a credential and
an existing session, the restart closes and removes the old session before
opening the new one, and the connection's single session entry afterwards
is the new session. -/
theorem transcription_start_spec (st : ServerState) (sid : SId)
    (lang key : String) (old : Nat)
    (hk : key ≠ "") (hold : st.deepgram sid = some old) :
    transcriptionStart st sid lang "" =
      (st, [(sid, Ev.trError "DEEPGRAM_API_KEY not configured on server")],
       []) ∧
    (transcriptionStart st sid lang key).2.2 =
      [DgAct.close sid old,
       DgAct.openS sid st.nextDg (if lang = "" then "en-US" else lang)] ∧
    (transcriptionStart st sid lang key).1.deepgram sid = some st.nextDg := by
  refine ⟨by simp [transcriptionStart], ?_, ?_⟩
  · simp [transcriptionStart, hk, hold]
  · simp [transcriptionStart, hk, hold, fset]

/-- Witness for C7: restart on top of session 0 with key present closes 0,
opens 1; a start without a key only reports the configuration error. -/
theorem transcription_start_spec_witness :
    transcriptionStart stT 1 "fr" "" =
      (stT, [(1, Ev.trError "DEEPGRAM_API_KEY not configured on server")],
       []) ∧
    (transcriptionStart stT 1 "fr" "KEY").2.2 =
      [DgAct.close 1 0, DgAct.openS 1 1 "fr"] ∧
    (transcriptionStart stT 1 "fr" "KEY").1.deepgram 1 = some 1 :=
  transcription_start_spec stT 1 "fr" "KEY" 0 (by decide) (by decide)

theorem mem_broadcast (st : ServerState) (room : String) (sender r : SId)
    (ev : Ev) (hr : r ∈ st.rooms room) (hne : r ≠ sender) :
    (r, ev) ∈ broadcast st room sender ev := by
  unfold broadcast
  exact List.mem_map_of_mem _ (List.mem_filter.mpr ⟨hr, by simpa using hne⟩)

theorem discMatch_userSockets (st : ServerState) (sid : SId) (u m : String) :
    (discMatch st sid u m).1.userSockets = st.userSockets := by
  unfold discMatch
  split
  · rfl
  · split <;> rfl

theorem discMatch_evs (st : ServerState) (sid : SId) (u m : String)
    (mset : List SId) (hset : mapLookup st.matchesMap m = some mset) :
    (discMatch st sid u m).2 = discNotify st sid u m := by
  simp only [discMatch, hset]
  split <;> rfl

theorem discMatch_lookup_matches (st : ServerState) (sid : SId) (u m : String)
    (mset : List SId) (hset : mapLookup st.matchesMap m = some mset) :
    mapLookup (discMatch st sid u m).1.matchesMap m =
      (if (mset.erase sid).length = 0 then none
       else some (mset.erase sid)) := by
  simp only [discMatch, hset]
  by_cases hlen : (mset.erase sid).length = 0
  · simp only [if_pos hlen]
    exact mapLookup_mapErase_self _ _
  · simp only [if_neg hlen]
    exact mapLookup_mapInsert_self _ _ _

theorem discMatch_lookup_meta (st : ServerState) (sid : SId) (u m : String)
    (mset : List SId) (hset : mapLookup st.matchesMap m = some mset) :
    mapLookup (discMatch st sid u m).1.matchMetadata m =
      (if (mset.erase sid).length = 0 then none
       else mapLookup st.matchMetadata m) := by
  simp only [discMatch, hset]
  by_cases hlen : (mset.erase sid).length = 0
  · simp only [if_pos hlen]
    exact mapLookup_mapErase_self _ _
  · simp only [if_neg hlen]

/-- C5 counterexample: in the reachable zombie state, socket 2 is
registered to m1 whose member set is [1, 2]; its disconnect leaves the
remaining member 1 in the stored set but emits no event at all — the
remaining match member receives neither `user-left` nor `call-ended`,
refuting the claim as stated. -/
theorem disconnect_unnotified_member_cex :
    (stZ5.sockets 2).userId = some "u2" ∧
    (stZ5.sockets 2).matchId = some "m1" ∧
    mapLookup stZ5.matchesMap "m1" = some [1, 2] ∧
    mapLookup (disconnect stZ5 2).1.matchesMap "m1" = some [1] ∧
    (disconnect stZ5 2).2.1 = ([] : List (SId × Ev)) := by
  refine ⟨by decide, by decide, by decide, by decide, by decide⟩

/-- C5 (amended): disconnecting a registered connection deletes its userId
index entry, removes it from its match's member set, notifies every
remaining member that is still in the match's room with both `user-left`
and `call-ended` (a member displaced to another match or already
disconnected has left the room and receives nothing), and deletes the
match and its metadata exactly when the member set becomes empty. -/
theorem disconnect_cleanup (st : ServerState) (sid : SId) (u m : String)
    (mset : List SId)
    (hu : (st.sockets sid).userId = some u)
    (hm : (st.sockets sid).matchId = some m)
    (hset : mapLookup st.matchesMap m = some mset)
    (hnd : mset.Nodup) :
    (disconnect st sid).1.userSockets u = none ∧
    sid ∉ ((mapLookup (disconnect st sid).1.matchesMap m).getD []) ∧
    mapLookup (disconnect st sid).1.matchesMap m =
      (if (mset.erase sid).length = 0 then none
       else some (mset.erase sid)) ∧
    mapLookup (disconnect st sid).1.matchMetadata m =
      (if (mset.erase sid).length = 0 then none
       else mapLookup st.matchMetadata m) ∧
    (∀ r ∈ mset.erase sid, r ∈ st.rooms m →
      (r, Ev.userLeft u) ∈ (disconnect st sid).2.1 ∧
      (r, Ev.callEnded u) ∈ (disconnect st sid).2.1) := by
  have hreg : discReg (discDg st sid).1 sid =
      discMatch (discMaps (discDg st sid).1 sid u) sid u m := by
    unfold discReg
    rw [discDg_sockets, hu, hm]
  have hAmap : (discMaps (discDg st sid).1 sid u).matchesMap =
      st.matchesMap := discDg_matchesMap st sid
  have hAmeta : (discMaps (discDg st sid).1 sid u).matchMetadata =
      st.matchMetadata := discDg_matchMetadata st sid
  have hArooms : (discMaps (discDg st sid).1 sid u).rooms = st.rooms :=
    discDg_rooms st sid
  have hsetA : mapLookup (discMaps (discDg st sid).1 sid u).matchesMap m =
      some mset := by rw [hAmap]; exact hset
  have hfst : (disconnect st sid).1.userSockets =
      (discReg (discDg st sid).1 sid).1.userSockets := rfl
  have hmm : (disconnect st sid).1.matchesMap =
      (discReg (discDg st sid).1 sid).1.matchesMap := rfl
  have hmd : (disconnect st sid).1.matchMetadata =
      (discReg (discDg st sid).1 sid).1.matchMetadata := rfl
  have hev : (disconnect st sid).2.1 = (discReg (discDg st sid).1 sid).2 := rfl
  have hlkp : mapLookup (disconnect st sid).1.matchesMap m =
      (if (mset.erase sid).length = 0 then none
       else some (mset.erase sid)) := by
    rw [hmm, hreg]
    exact discMatch_lookup_matches _ sid u m mset hsetA
  refine ⟨?_, ?_, hlkp, ?_, ?_⟩
  · rw [hfst, hreg, discMatch_userSockets]
    show fdel (discDg st sid).1.userSockets u u = none
    simp [fdel]
  · rw [hlkp]
    by_cases hlen : (mset.erase sid).length = 0
    · simp [hlen]
    · simp only [if_neg hlen, Option.getD_some]
      exact hnd.not_mem_erase
  · rw [hmd, hreg, discMatch_lookup_meta _ sid u m mset hsetA, hAmeta]
  · intro r hr hrm
    have hrs : r ≠ sid := fun hEq => hnd.not_mem_erase (hEq ▸ hr)
    rw [hev, hreg, discMatch_evs _ sid u m mset hsetA]
    unfold discNotify
    constructor
    · exact List.mem_append_left _
        (mem_broadcast _ m sid r _ (hArooms ▸ hrm) hrs)
    · exact List.mem_append_right _
        (mem_broadcast _ m sid r _ (hArooms ▸ hrm) hrs)

/-- Witness for C5 (amended): socket 1 disconnects from the two-member
match m1; socket 2 is in the room, is notified twice, and the match
survives with one member. -/
theorem disconnect_cleanup_witness :
    (disconnect stW 1).1.userSockets "u1" = none ∧
    1 ∉ ((mapLookup (disconnect stW 1).1.matchesMap "m1").getD []) ∧
    mapLookup (disconnect stW 1).1.matchesMap "m1" =
      (if (([1, 2] : List SId).erase 1).length = 0 then none
       else some (([1, 2] : List SId).erase 1)) ∧
    mapLookup (disconnect stW 1).1.matchMetadata "m1" =
      (if (([1, 2] : List SId).erase 1).length = 0 then none
       else mapLookup stW.matchMetadata "m1") ∧
    (∀ r ∈ ([1, 2] : List SId).erase 1, r ∈ stW.rooms "m1" →
      (r, Ev.userLeft "u1") ∈ (disconnect stW 1).2.1 ∧
      (r, Ev.callEnded "u1") ∈ (disconnect stW 1).2.1) :=
  disconnect_cleanup stW 1 "u1" "m1" [1, 2] (by decide) (by decide)
    (by decide) (by decide)

theorem regSetInfo_matchMetadata (st : ServerState) (sid : SId)
    (u m : String) : (regSetInfo st sid u m).matchMetadata = st.matchMetadata :=
  rfl

theorem regInitMatch_meta_self (st : ServerState) (m : String) (now : Int) :
    mapLookup (regInitMatch st m now).matchMetadata m =
      (if (mapLookup st.matchesMap m).isNone then some ⟨now, now⟩
       else mapLookup st.matchMetadata m) := by
  unfold regInitMatch
  by_cases h : (mapLookup st.matchesMap m).isNone
  · simp [h, mapLookup_mapInsert_self]
  · simp [h]

theorem regJoin_of_meta (st : ServerState) (sid : SId) (u m : String)
    (now : Int) (mset : List SId) (md : MatchMeta)
    (hmd : mapLookup st.matchMetadata m = some md) :
    regJoin st sid u m now mset =
      (regTouch (regJoinRoom st sid m (insertS sid mset)) m now md,
       (sid, Ev.joined m u
          ((insertS sid mset).map (fun s => (st.sockets s).userId))
          (insertS sid mset).length) ::
        broadcast (regJoinRoom st sid m (insertS sid mset)) m sid
          (Ev.userJoined u (insertS sid mset).length)) := by
  unfold regJoin
  rw [hmd]

theorem registerAdmit_not_full (st₂ : ServerState) (sid : SId) (u m : String)
    (now : Int)
    (hok : ¬ (2 ≤ ((mapLookup st₂.matchesMap m).getD []).length ∧
       sid ∉ (mapLookup st₂.matchesMap m).getD [])) :
    registerAdmit st₂ sid u m now =
      regJoin st₂ sid u m now ((mapLookup st₂.matchesMap m).getD []) := by
  unfold registerAdmit
  rw [if_neg hok]

theorem register_not_falsy (st : ServerState) (sid : SId) (u m : String)
    (now : Int) (hu : u ≠ "") (hm : m ≠ "") :
    register st sid u m now =
      registerAdmit (regInitMatch (regSetInfo st sid u m) m now)
        sid u m now := by
  unfold register
  rw [if_neg (by simp [hu, hm])]

theorem regJoin_success_fields (st : ServerState) (sid : SId) (u m : String)
    (now : Int) (mset : List SId) (md : MatchMeta)
    (hmd : mapLookup st.matchMetadata m = some md) :
    mapLookup (regJoin st sid u m now mset).1.matchesMap m =
      some (insertS sid mset) ∧
    mapLookup (regJoin st sid u m now mset).1.matchMetadata m =
      some ⟨md.createdAt, now⟩ ∧
    ackCount (regJoin st sid u m now mset).2 =
      some (insertS sid mset).length ∧
    ackPartsLen (regJoin st sid u m now mset).2 =
      some (insertS sid mset).length := by
  rw [regJoin_of_meta st sid u m now mset md hmd]
  refine ⟨?_, ?_, rfl, ?_⟩
  · show mapLookup (mapInsert st.matchesMap m (insertS sid mset)) m = _
    exact mapLookup_mapInsert_self _ _ _
  · show mapLookup (mapInsert st.matchMetadata m ⟨md.createdAt, now⟩) m = _
    exact mapLookup_mapInsert_self _ _ _
  · show some ((insertS sid mset).map
        (fun s => (st.sockets s).userId)).length = _
    rw [List.length_map]

/-- C6: registering the same connection to the same match a second time is
idempotent — the second `register` succeeds, the match's member entry is
unchanged, and the `joined` acknowledgment reports the same participant
count and a participant list of the same length. -/
theorem register_idempotent (st : ServerState) (sid : SId) (u m : String)
    (t₁ t₂ : Int) (hu : u ≠ "") (hm : m ≠ "")
    (hcan : canJoinB st sid m = true) (hmeta : metaOK st m = true) :
    mapLookup (register (register st sid u m t₁).1 sid u m t₂).1.matchesMap m =
      mapLookup (register st sid u m t₁).1.matchesMap m ∧
    ackCount (register (register st sid u m t₁).1 sid u m t₂).2 =
      ackCount (register st sid u m t₁).2 ∧
    (ackCount (register st sid u m t₁).2).isSome = true ∧
    ackPartsLen (register (register st sid u m t₁).1 sid u m t₂).2 =
      ackPartsLen (register st sid u m t₁).2 := by
  set st₂ := regInitMatch (regSetInfo st sid u m) m t₁ with hst₂
  have hL0 := regInitMatch_lookup_self (regSetInfo st sid u m) m t₁
  rw [regSetInfo_matchesMap] at hL0
  rw [← hst₂] at hL0
  have hguard : ¬ (2 ≤ ((mapLookup st₂.matchesMap m).getD []).length ∧
      sid ∉ (mapLookup st₂.matchesMap m).getD []) := by
    rw [hL0]
    simp only [Option.getD_some]
    unfold canJoinB at hcan
    cases hl : mapLookup st.matchesMap m with
    | none => simp [hl]
    | some l =>
      rw [hl] at hcan
      simp at hcan
      simp only [hl, Option.getD_some]
      rcases hcan with hlt | hmem
      · exact fun hc => absurd hc.1 (by omega)
      · exact fun hc => hc.2 hmem
  have hmd : ∃ md₀, mapLookup st₂.matchMetadata m = some md₀ := by
    rw [hst₂, regInitMatch_meta_self, regSetInfo_matchesMap,
      regSetInfo_matchMetadata]
    cases hl : mapLookup st.matchesMap m with
    | none => exact ⟨⟨t₁, t₁⟩, by simp [hl]⟩
    | some l =>
      unfold metaOK at hmeta
      rw [hl] at hmeta
      simp at hmeta
      cases hmdv : mapLookup st.matchMetadata m with
      | none => rw [hmdv] at hmeta; simp at hmeta
      | some md₀ => exact ⟨md₀, by simp [hl, hmdv]⟩
  obtain ⟨md₀, hmd₀⟩ := hmd
  have hr1 : register st sid u m t₁ =
      regJoin st₂ sid u m t₁ ((mapLookup st₂.matchesMap m).getD []) := by
    rw [register_not_falsy st sid u m t₁ hu hm, ← hst₂,
      registerAdmit_not_full st₂ sid u m t₁ hguard]
  obtain ⟨ha1, hb1, hc1, hd1⟩ := regJoin_success_fields st₂ sid u m t₁
    ((mapLookup st₂.matchesMap m).getD []) md₀ hmd₀
  rw [hr1]
  set P1 := (regJoin st₂ sid u m t₁ ((mapLookup st₂.matchesMap m).getD [])).1
    with hP1def
  set st₂' := regInitMatch (regSetInfo P1 sid u m) m t₂ with hst₂'
  have hL0' := regInitMatch_lookup_self (regSetInfo P1 sid u m) m t₂
  rw [regSetInfo_matchesMap] at hL0'
  rw [← hst₂'] at hL0'
  rw [ha1] at hL0'
  simp only [Option.getD_some] at hL0'
  have hmem1 : sid ∈ insertS sid ((mapLookup st₂.matchesMap m).getD []) :=
    mem_insertS_self sid _
  have hguard' : ¬ (2 ≤ ((mapLookup st₂'.matchesMap m).getD []).length ∧
      sid ∉ (mapLookup st₂'.matchesMap m).getD []) := by
    rw [hL0']
    simp only [Option.getD_some]
    exact fun hc => hc.2 hmem1
  have hmd' : mapLookup st₂'.matchMetadata m = some ⟨md₀.createdAt, t₁⟩ := by
    rw [hst₂', regInitMatch_meta_self, regSetInfo_matchesMap,
      regSetInfo_matchMetadata, ha1]
    simp [hb1]
  have hr2 : register P1 sid u m t₂ =
      regJoin st₂' sid u m t₂ ((mapLookup st₂'.matchesMap m).getD []) := by
    rw [register_not_falsy P1 sid u m t₂ hu hm, ← hst₂',
      registerAdmit_not_full st₂' sid u m t₂ hguard']
  obtain ⟨ha2, hb2, hc2, hd2⟩ := regJoin_success_fields st₂' sid u m t₂
    ((mapLookup st₂'.matchesMap m).getD []) ⟨md₀.createdAt, t₁⟩ hmd'
  have hins : insertS sid ((mapLookup st₂'.matchesMap m).getD []) =
      insertS sid ((mapLookup st₂.matchesMap m).getD []) := by
    rw [hL0']
    simp only [Option.getD_some]
    exact insertS_of_mem hmem1
  rw [hr2]
  refine ⟨?_, ?_, ?_, ?_⟩
  · rw [ha2, ha1, hins]
  · rw [hc2, hc1, hins]
  · rw [hc1]
    rfl
  · rw [hd2, hd1, hins]

/-- Witness for C6: u2 re-registers to m1; the member entry and the ack
counts repeat the first registration's. -/
theorem register_idempotent_witness :
    mapLookup (register (register stW 2 "u2" "m1" 7).1 2 "u2" "m1" 8).1.matchesMap
        "m1" =
      mapLookup (register stW 2 "u2" "m1" 7).1.matchesMap "m1" ∧
    ackCount (register (register stW 2 "u2" "m1" 7).1 2 "u2" "m1" 8).2 =
      ackCount (register stW 2 "u2" "m1" 7).2 ∧
    (ackCount (register stW 2 "u2" "m1" 7).2).isSome = true ∧
    ackPartsLen (register (register stW 2 "u2" "m1" 7).1 2 "u2" "m1" 8).2 =
      ackPartsLen (register stW 2 "u2" "m1" 7).2 :=
  register_idempotent stW 2 "u2" "m1" 7 8 (by decide) (by decide) (by decide)
    (by decide)

/-! ### The background reaper (claim C9) -/

theorem reapCheck_purge (now : Int) (st : ServerState) (mid : String)
    (md : MatchMeta) (mset : List SId)
    (hset : mapLookup st.matchesMap mid = some mset)
    (hz : mset.length = 0) (hstale : staleTimeout < now - md.lastActivity) :
    mapLookup (reapCheck now st mid md).matchesMap mid = none ∧
    mapLookup (reapCheck now st mid md).matchMetadata mid = none := by
  unfold reapCheck
  rw [if_pos hstale]
  simp only [hset, if_pos hz]
  exact ⟨mapLookup_mapErase_self _ _, mapLookup_mapErase_self _ _⟩

theorem reapCheck_keep (now : Int) (st : ServerState) (mid : String)
    (md : MatchMeta)
    (hcond : ¬ ((∃ mset, mapLookup st.matchesMap mid = some mset ∧
        mset.length = 0) ∧ staleTimeout < now - md.lastActivity)) :
    mapLookup (reapCheck now st mid md).matchesMap mid =
      mapLookup st.matchesMap mid ∧
    mapLookup (reapCheck now st mid md).matchMetadata mid =
      mapLookup st.matchMetadata mid := by
  unfold reapCheck
  by_cases hstale : staleTimeout < now - md.lastActivity
  · rw [if_pos hstale]
    cases hl : mapLookup st.matchesMap mid with
    | none => simp [hl]
    | some mset =>
      have hz : ¬ mset.length = 0 := fun hz => hcond ⟨⟨mset, hl, hz⟩, hstale⟩
      have hz' : ¬ mset = [] := fun h => hz (by simp [h])
      simp [hl, hz']
  · rw [if_neg hstale]
    exact ⟨rfl, rfl⟩

theorem reapStep_lookup_ne (now : Int) (st : ServerState)
    (e : String × MatchMeta) (mid : String) (hne : e.1 ≠ mid) :
    mapLookup (reapStep now st e).matchesMap mid =
      mapLookup st.matchesMap mid ∧
    mapLookup (reapStep now st e).matchMetadata mid =
      mapLookup st.matchMetadata mid := by
  show mapLookup (reapCheck now st e.1 e.2).matchesMap mid = _ ∧
    mapLookup (reapCheck now st e.1 e.2).matchMetadata mid = _
  unfold reapCheck
  by_cases hstale : staleTimeout < now - e.2.lastActivity
  · rw [if_pos hstale]
    cases hl : mapLookup st.matchesMap e.1 with
    | none => simp [hl]
    | some mset =>
      by_cases hz : mset.length = 0
      · simp only [hl, if_pos hz]
        exact ⟨mapLookup_mapErase_ne _ _ _ (Ne.symm hne),
          mapLookup_mapErase_ne _ _ _ (Ne.symm hne)⟩
      · have hz' : ¬ mset = [] := fun h => hz (by simp [h])
        simp [hl, hz']
  · rw [if_neg hstale]
    exact ⟨rfl, rfl⟩

theorem reapFold_notmem (now : Int) (mid : String) :
    ∀ (l : List (String × MatchMeta)) (st : ServerState),
      mid ∉ l.map Prod.fst →
      mapLookup (l.foldl (reapStep now) st).matchesMap mid =
        mapLookup st.matchesMap mid ∧
      mapLookup (l.foldl (reapStep now) st).matchMetadata mid =
        mapLookup st.matchMetadata mid := by
  intro l
  induction l with
  | nil => intro st _; exact ⟨rfl, rfl⟩
  | cons e rest ih =>
    intro st h
    simp only [List.map_cons, List.mem_cons, not_or] at h
    rw [List.foldl_cons]
    have hstep := reapStep_lookup_ne now st e mid (fun hh => h.1 hh.symm)
    have hrest := ih (reapStep now st e) h.2
    exact ⟨hrest.1.trans hstep.1, hrest.2.trans hstep.2⟩

theorem reapFold_mem (now : Int) (mid : String) (md : MatchMeta) :
    ∀ (l : List (String × MatchMeta)) (st : ServerState),
      (l.map Prod.fst).Nodup → (mid, md) ∈ l →
      (((∃ mset, mapLookup st.matchesMap mid = some mset ∧
          mset.length = 0) ∧ staleTimeout < now - md.lastActivity) →
        mapLookup (l.foldl (reapStep now) st).matchesMap mid = none ∧
        mapLookup (l.foldl (reapStep now) st).matchMetadata mid = none) ∧
      (¬ ((∃ mset, mapLookup st.matchesMap mid = some mset ∧
          mset.length = 0) ∧ staleTimeout < now - md.lastActivity) →
        mapLookup (l.foldl (reapStep now) st).matchesMap mid =
          mapLookup st.matchesMap mid ∧
        mapLookup (l.foldl (reapStep now) st).matchMetadata mid =
          mapLookup st.matchMetadata mid) := by
  intro l
  induction l with
  | nil =>
    intro st _ hmem
    simp at hmem
  | cons e rest ih =>
    intro st hnd hmem
    rw [List.map_cons] at hnd
    have hnd' := List.nodup_cons.mp hnd
    rw [List.foldl_cons]
    rcases List.mem_cons.mp hmem with heq | hrest
    · subst heq
      have hnotin : mid ∉ rest.map Prod.fst := hnd'.1
      have hrestfold := reapFold_notmem now mid rest
        (reapStep now st (mid, md)) hnotin
      constructor
      · intro hcond
        obtain ⟨⟨mset, hl, hz⟩, hstale⟩ := hcond
        have hstep := reapCheck_purge now st mid md mset hl hz hstale
        exact ⟨hrestfold.1.trans hstep.1, hrestfold.2.trans hstep.2⟩
      · intro hcond
        have hstep := reapCheck_keep now st mid md hcond
        exact ⟨hrestfold.1.trans hstep.1, hrestfold.2.trans hstep.2⟩
    · have hmidrest : mid ∈ rest.map Prod.fst := by
        have : Prod.fst (mid, md) ∈ rest.map Prod.fst :=
          List.mem_map_of_mem Prod.fst hrest
        simpa using this
      have hne : e.1 ≠ mid := fun hEq => hnd'.1 (hEq ▸ hmidrest)
      have hstep := reapStep_lookup_ne now st e mid hne
      have H := ih (reapStep now st e) hnd'.2 hrest
      rw [hstep.1, hstep.2] at H
      exact H

/-- C9: a reaper pass deletes both the match entry and its metadata for
exactly those matches that currently have an empty member set and whose
lastActivity is more than 30 minutes before `now`; every other match and
every other metadata entry (including metadata without a match entry and
matches without metadata) is left unchanged. -/
theorem reaper_spec (st : ServerState) (now : Int)
    (hnd : (st.matchMetadata.map Prod.fst).Nodup) :
    (∀ mid md mset,
       mapLookup st.matchMetadata mid = some md →
       mapLookup st.matchesMap mid = some mset →
       ((mset.length = 0 ∧ staleTimeout < now - md.lastActivity) →
          mapLookup (reap st now).matchesMap mid = none ∧
          mapLookup (reap st now).matchMetadata mid = none) ∧
       (¬ (mset.length = 0 ∧ staleTimeout < now - md.lastActivity) →
          mapLookup (reap st now).matchesMap mid = some mset ∧
          mapLookup (reap st now).matchMetadata mid = some md)) ∧
    (∀ mid, mapLookup st.matchMetadata mid = none →
       mapLookup (reap st now).matchesMap mid =
         mapLookup st.matchesMap mid ∧
       mapLookup (reap st now).matchMetadata mid = none) ∧
    (∀ mid md, mapLookup st.matchMetadata mid = some md →
       mapLookup st.matchesMap mid = none →
       mapLookup (reap st now).matchesMap mid = none ∧
       mapLookup (reap st now).matchMetadata mid = some md) := by
  refine ⟨?_, ?_, ?_⟩
  · intro mid md mset hmd hms
    have hmem := mem_of_mapLookup_some hmd
    have H := reapFold_mem now mid md st.matchMetadata st hnd hmem
    constructor
    · intro hcond
      exact H.1 ⟨⟨mset, hms, hcond.1⟩, hcond.2⟩
    · intro hcond
      have hnc : ¬ ((∃ mset', mapLookup st.matchesMap mid = some mset' ∧
          mset'.length = 0) ∧ staleTimeout < now - md.lastActivity) := by
        rintro ⟨⟨mset', hms', hz'⟩, hstale⟩
        rw [hms] at hms'
        exact hcond ⟨(Option.some.inj hms') ▸ hz', hstale⟩
      have := H.2 hnc
      rw [hms, hmd] at this
      exact this
  · intro mid hmd
    have hnot := not_mem_keys_of_mapLookup_eq_none hmd
    have := reapFold_notmem now mid st.matchMetadata st hnot
    rw [hmd] at this
    exact this
  · intro mid md hmd hms
    have hmem := mem_of_mapLookup_some hmd
    have H := reapFold_mem now mid md st.matchMetadata st hnd hmem
    have hnc : ¬ ((∃ mset', mapLookup st.matchesMap mid = some mset' ∧
        mset'.length = 0) ∧ staleTimeout < now - md.lastActivity) := by
      rintro ⟨⟨mset', hms', _⟩, _⟩
      rw [hms] at hms'
      exact Option.noConfusion hms'
    have := H.2 hnc
    rw [hms, hmd] at this
    exact this

/-- Witness for C9 on a concrete scenario: the empty stale m1 is purged
with its metadata; the occupied m2 and the match-less metadata entry m3
survive untouched. -/
theorem reaper_spec_witness :
    (mapLookup (reap stR 2000000).matchesMap "m1" = none ∧
     mapLookup (reap stR 2000000).matchMetadata "m1" = none) ∧
    (mapLookup (reap stR 2000000).matchesMap "m2" = some [9] ∧
     mapLookup (reap stR 2000000).matchMetadata "m2" = some ⟨0, 0⟩) ∧
    (mapLookup (reap stR 2000000).matchesMap "m3" = none ∧
     mapLookup (reap stR 2000000).matchMetadata "m3" = some ⟨0, 0⟩) :=
  ⟨((reaper_spec stR 2000000 (by decide)).1 "m1" ⟨0, 0⟩ [] (by decide)
      (by decide)).1 (by decide),
   ((reaper_spec stR 2000000 (by decide)).1 "m2" ⟨0, 0⟩ [9] (by decide)
      (by decide)).2 (by decide),
   (reaper_spec stR 2000000 (by decide)).2.2 "m3" ⟨0, 0⟩ (by decide)
      (by decide)⟩
